import Mathlib

/-!
Shallow embedding of the camera-app backend (src/backend/index.js).

The backend keeps an in-memory array `photos` of photo records and a
directory of uploaded files on disk.  We model:

* the filesystem as an association list from paths (lists of segments)
  to file contents (lists of bytes);
* Node `path.join(dir, s)` as splitting `s` on the slash character and
  normalising the combined segment list (dropping empty and `.` segments
  and resolving `..` by removing the previous segment, as
  `path.posix.normalize` does for absolute paths);
* the clock (`Date.now()`), the random draw
  (`Math.round(Math.random() * 1E9)`) and disk-write / unlink success as
  explicit oracle inputs;
* HTTP responses as inductive result types carrying the status codes and
  message strings the handlers produce.

Multer behaviour that the route code relies on is part of the embedding:
the `fileFilter` runs before any bytes are written; the `fileSize` limit
aborts the request and the completed (truncated) file is then removed
with the other `uploadedFiles`; but a file whose write stream errors
mid-write is never added to `uploadedFiles` nor unlinked, so a disk
write failure leaves the partially-written blob on disk with no index
record.
-/

/-- One stored photograph, as built by the upload handler
(`id`, `filename`, `originalName`, `path`, `size`, `mimetype`,
`timestamp`).  `timestamp` is `new Date().toISOString()` in the source;
we keep the underlying millisecond clock value (the ISO rendering of the
clock is not modelled). -/
structure PhotoRecord where
  id : Nat
  filename : String
  originalName : String
  path : List String
  size : Nat
  mimetype : String
  timestamp : Nat
deriving DecidableEq

/-- The on-disk storage: an association list from paths to byte lists. -/
abbrev Fs := List (List String × List Nat)

/-- `fs.existsSync` / reading a file: first entry with the given path. -/
def fsRead (fs : Fs) (p : List String) : Option (List Nat) :=
  match fs.find? (fun e => e.1 == p) with
  | some e => some e.2
  | none => none

/-- `fs.existsSync`. -/
def fsExists (fs : Fs) (p : List String) : Bool :=
  (fsRead fs p).isSome

/-- `fs.unlinkSync`: remove the entry at the path. -/
def fsErase (fs : Fs) (p : List String) : Fs :=
  fs.filter (fun e => !(e.1 == p))

/-- A write stream at the path: creates or truncates the file. -/
def fsWrite (fs : Fs) (p : List String) (b : List Nat) : Fs :=
  (p, b) :: fsErase fs p

/-- Split a character list on the slash character (the segments of a
POSIX path fragment). -/
def splitOnSlash : List Char → List (List Char)
  | [] => [[]]
  | c :: cs =>
    let r := splitOnSlash cs
    if c = '/' then [] :: r
    else
      match r with
      | s :: rest => (c :: s) :: rest
      | [] => [[c]]

/-- `path.posix.normalize` on the segments of an absolute path: empty
and `.` segments are dropped, `..` removes the previous segment (and is
dropped at the root). -/
def normSegs (segs : List String) : List String :=
  segs.foldl
    (fun acc seg =>
      if seg = "" then acc
      else if seg = "." then acc
      else if seg = ".." then acc.dropLast
      else acc ++ [seg])
    []

/-- `path.join(dir, s)` for an absolute directory `dir`: append the
slash-separated segments of `s` and normalise. -/
def pathJoin (dir : List String) (s : String) : List String :=
  normSegs (dir ++ (splitOnSlash s.toList).map List.asString)

/-- `path.join(__dirname, 'uploads')` — the fixed storage directory
(a concrete absolute path; the process is started from the backend
directory, so multer's relative destination `uploads/` names the same
directory). -/
def uploadsDir : List String := ["app", "backend", "uploads"]

/-- JavaScript `String.prototype.startsWith`. -/
def strStartsWith (s pre : String) : Bool :=
  pre.toList.isPrefixOf s.toList

/-- The multer filename callback:
`'photo-' + Date.now() + '-' + Math.round(Math.random() * 1E9) + '.jpg'`. -/
def genFilename (now rand : Nat) : String :=
  "photo-" ++ Nat.repr now ++ "-" ++ Nat.repr rand ++ ".jpg"

/-- The whole server state: the in-memory `photos` array plus the disk. -/
structure ServerState where
  photos : List PhotoRecord
  fs : Fs
deriving DecidableEq

/-- Outcome of `POST /api/upload` (constructor per response branch). -/
inductive UploadResult where
  | noFile
  | filterError
  | sizeError
  | writeError (msg : String)
  | ok (id : Nat) (filename : String) (url : String) (timestamp : Nat)
deriving DecidableEq

/-- The HTTP status each upload response branch carries: 400 for the
missing part and for `LIMIT_FILE_SIZE` (the error middleware), 500 for
a non-`MulterError` (the fileFilter error and storage write errors fall
through to the generic 500 branch), 200 on success. -/
def UploadResult.status : UploadResult → Nat
  | .noFile => 400
  | .filterError => 500
  | .sizeError => 400
  | .writeError _ => 500
  | .ok _ _ _ _ => 200

/-- The message string of each upload response branch. -/
def UploadResult.message : UploadResult → String
  | .noFile => "No file uploaded"
  | .filterError => "Only image files are allowed!"
  | .sizeError => "File too large. Maximum size is 10MB."
  | .writeError m => m
  | .ok _ _ _ _ => "Photo uploaded successfully"

/-- Whether the upload succeeded. -/
def UploadResult.isOk : UploadResult → Bool
  | .ok _ _ _ _ => true
  | _ => false

/-- `limits.fileSize`: `10 * 1024 * 1024`. -/
def maxFileSize : Nat := 10 * 1024 * 1024

/-- The record the upload handler pushes onto `photos`
(`id: Date.now()`, the multer-generated filename, `req.file.path`,
`req.file.size`, `req.file.mimetype`, `timestamp`). -/
def mkPhotoRecord (originalName mimetype : String) (bytes : List Nat)
    (now rand : Nat) : PhotoRecord :=
  { id := now
    filename := genFilename now rand
    originalName := originalName
    path := pathJoin uploadsDir (genFilename now rand)
    size := bytes.length
    mimetype := mimetype
    timestamp := now }

/-- `POST /api/upload`: multer's fileFilter rejects non-`image/` media
types before anything is written; the `fileSize` limit aborts oversize
bodies (the truncated file completes, lands in `uploadedFiles` and is
removed on the abort, so the durable state is unchanged); a disk write
that errors after `k` of the bytes (`writeErr = some (msg, k)`)
surfaces as a 500 with the underlying message and leaves the
partially-written file on disk — multer unlinks only completed
`uploadedFiles`, never the file whose stream errored — with no record
appended; otherwise the file is on disk and the handler appends the
record and responds with the projection (`id`, `filename`, `url`,
`timestamp`). -/
def uploadPhoto (st : ServerState) (hasFile : Bool)
    (mimetype originalName : String) (bytes : List Nat)
    (now rand : Nat) (writeErr : Option (String × Nat)) :
    UploadResult × ServerState :=
  if hasFile = false then (.noFile, st)
  else if strStartsWith mimetype "image/" = false then (.filterError, st)
  else if maxFileSize < bytes.length then (.sizeError, st)
  else
    let r0 := mkPhotoRecord originalName mimetype bytes now rand
    match writeErr with
    | some (m, k) =>
      (.writeError m,
       { photos := st.photos, fs := fsWrite st.fs r0.path (bytes.take k) })
    | none =>
      (.ok r0.id r0.filename ("/api/photos/" ++ r0.filename) r0.timestamp,
       { photos := st.photos ++ [r0], fs := fsWrite st.fs r0.path bytes })

/-- The projection `GET /api/photos` returns for each record. -/
structure PhotoProjection where
  id : Nat
  filename : String
  originalName : String
  url : String
  timestamp : Nat
deriving DecidableEq

/-- The map body of the list handler. -/
def projectPhoto (p : PhotoRecord) : PhotoProjection :=
  { id := p.id
    filename := p.filename
    originalName := p.originalName
    url := "/api/photos/" ++ p.filename
    timestamp := p.timestamp }

/-- `GET /api/photos`: `count: photos.length` plus the projected array. -/
def listPhotos (st : ServerState) : Nat × List PhotoProjection :=
  (st.photos.length, st.photos.map projectPhoto)

/-- Outcome of `GET /api/photos/:filename`. -/
inductive FetchResult where
  | sendFile (p : List String) (bytes : List Nat)
  | notFound
deriving DecidableEq

/-- `GET /api/photos/:filename`: `photoPath = path.join(uploadsDir,
filename)`; if `fs.existsSync(photoPath)` then `res.sendFile(photoPath)`
(the bytes of the file at that path), else 404.  The handler does not
consult the `photos` index. -/
def fetchPhoto (fs : Fs) (filename : String) : FetchResult :=
  match fsRead fs (pathJoin uploadsDir filename) with
  | some b => .sendFile (pathJoin uploadsDir filename) b
  | none => .notFound

/-- JavaScript whitespace skipped by `parseInt`: the ECMAScript
WhiteSpace and LineTerminator characters (ASCII whitespace, NBSP, the
Unicode space separators, LS/PS and the ZWNBSP). -/
def jsWhitespace (c : Char) : Bool :=
  c == ' ' || c == '\t' || c == '\n' || c == '\r' || c == '\x0b' || c == '\x0c'
    || c == '\u00A0' || c == '\u1680'
    || decide (0x2000 ≤ c.toNat ∧ c.toNat ≤ 0x200A)
    || c == '\u2028' || c == '\u2029' || c == '\u202F' || c == '\u205F'
    || c == '\u3000' || c == '\uFEFF'

/-- The numeric value of a hexadecimal digit character, if any. -/
def hexDigitVal? (c : Char) : Option Nat :=
  if '0' ≤ c ∧ c ≤ '9' then some (c.toNat - 48)
  else if 'a' ≤ c ∧ c ≤ 'f' then some (c.toNat - 87)
  else if 'A' ≤ c ∧ c ≤ 'F' then some (c.toNat - 55)
  else none

/-- Fold a digit-character list into a number at the given radix. -/
def digitsToNat (radix : Nat) (cs : List Char) : Nat :=
  cs.foldl (fun a c => radix * a + ((hexDigitVal? c).getD 0)) 0

/-- JavaScript `parseInt(s)` (radix argument omitted, as in the delete
handler): skip leading whitespace, read an optional sign, switch to
hexadecimal after a `0x`/`0X` prefix, then take the longest digit
prefix; `none` models `NaN`. -/
def jsParseInt (s : String) : Option Int :=
  let cs := s.toList.dropWhile jsWhitespace
  let sgn : Int := match cs with
    | '-' :: _ => -1
    | _ => 1
  let cs1 : List Char := match cs with
    | '-' :: rest => rest
    | '+' :: rest => rest
    | _ => cs
  let radix : Nat := match cs1 with
    | '0' :: 'x' :: _ => 16
    | '0' :: 'X' :: _ => 16
    | _ => 10
  let cs2 : List Char := match cs1 with
    | '0' :: 'x' :: rest => rest
    | '0' :: 'X' :: rest => rest
    | _ => cs1
  let ds := cs2.takeWhile (fun c =>
    match hexDigitVal? c with
    | some v => decide (v < radix)
    | none => false)
  if ds.isEmpty then none
  else some (sgn * (digitsToNat radix ds : Nat))

/-- Outcome of `DELETE /api/photos/:id` (404 / 200). -/
inductive DeleteResult where
  | notFound
  | success
deriving DecidableEq

/-- The Photo Store lookup: the scan
`photos.findIndex(photo => photo.id === id)` (first record whose id
equals the parsed id). -/
def findById (photos : List PhotoRecord) (n : Int) : Option PhotoRecord :=
  photos.find? (fun p => (p.id : Int) == n)

/-- `findIndex` followed by `splice(photoIndex, 1)`: the first record
whose id matches, together with the list with that record removed. -/
def findRemoveById (n : Int) :
    List PhotoRecord → Option (PhotoRecord × List PhotoRecord)
  | [] => none
  | p :: ps =>
    if ((p.id : Int) == n) = true then some (p, ps)
    else
      match findRemoveById n ps with
      | some (q, rest) => some (q, p :: rest)
      | none => none

/-- The delete handler after `parseInt`: 404 if no record matches;
otherwise best-effort `unlinkSync` of the record's file (`unlinkOk`
is the oracle for whether the unlink throws; a throw is caught and only
logged), then the splice, then a 200 success response. -/
def deleteById (st : ServerState) (n : Int) (unlinkOk : Bool) :
    DeleteResult × ServerState :=
  match findRemoveById n st.photos with
  | none => (.notFound, st)
  | some (photo, rest) =>
    let fs1 :=
      if fsExists st.fs photo.path && unlinkOk then fsErase st.fs photo.path
      else st.fs
    (.success, { photos := rest, fs := fs1 })

/-- `DELETE /api/photos/:id`: `parseInt(req.params.id)` then the scan;
`NaN` compares `===`-unequal to every id, so the scan finds nothing. -/
def deletePhoto (st : ServerState) (idStr : String) (unlinkOk : Bool) :
    DeleteResult × ServerState :=
  match jsParseInt idStr with
  | none => (.notFound, st)
  | some n => deleteById st n unlinkOk

/-- Modelled from the claim wording of C10 only (for comparison with the
code): the leading decimal integer prefix of the id string, present
exactly when the string starts with a digit (`"123abc"` ↦ `123`). -/
def leadingDecimalNat? (s : String) : Option Nat :=
  let ds := s.toList.takeWhile Char.isDigit
  if ds.isEmpty then none else some (digitsToNat 10 ds)

/-- One item of a sequential upload run: the client-supplied name and
bytes plus the clock value and random draw observed by that upload. -/
structure UploadItem where
  originalName : String
  bytes : List Nat
  now : Nat
  rand : Nat
deriving DecidableEq

/-- The record produced by a successful `image/jpeg` upload of an item. -/
def mkUploadRecord (it : UploadItem) : PhotoRecord :=
  mkPhotoRecord it.originalName "image/jpeg" it.bytes it.now it.rand

/-- One successful-path upload step of a run (media type `image/jpeg`,
file part present, disk write succeeding). -/
def stepUpload (st : ServerState) (it : UploadItem) : ServerState :=
  (uploadPhoto st true "image/jpeg" it.originalName it.bytes it.now it.rand none).2

/-- A sequential run of uploads. -/
def uploadRun (items : List UploadItem) (st : ServerState) : ServerState :=
  items.foldl stepUpload st

/-- One step of decoding a decimal digit string (proof device for
filename uniqueness). -/
def decDigitStep (a : Nat) (c : Char) : Nat := 10 * a + (c.toNat - 48)

/-- A state reached by one successful upload at clock value 123. -/
def st123 : ServerState :=
  (uploadPhoto ⟨[], []⟩ true "image/jpeg" "cap.jpg" [1, 2] 123 9 none).2

/-- A state reached by two successful uploads in the same millisecond
(clock value 100) with different random suffixes: two distinct records
share the id 100. -/
def stDup : ServerState :=
  uploadRun [⟨"a.jpg", [1], 100, 1⟩, ⟨"b.jpg", [2], 100, 2⟩] ⟨[], []⟩

/-- A state reached by one successful upload at clock value 7. -/
def st7 : ServerState :=
  (uploadPhoto ⟨[], []⟩ true "image/jpeg" "c.jpg" [3] 7 4 none).2

/-- One request handled during a run: an upload (with its oracle
inputs) or a delete. -/
inductive Event where
  | upload (hasFile : Bool) (mimetype originalName : String)
      (bytes : List Nat) (now rand : Nat) (writeErr : Option (String × Nat))
  | delete (idStr : String) (unlinkOk : Bool)

/-- Whether an upload request succeeds and creates a record.  The
outcome depends only on the request itself (file part present,
`image/` media type, within the size limit, clean write), never on the
server state. -/
def Event.succeeds : Event → Bool
  | .upload hf mt _ bytes _ _ werr =>
      hf && strStartsWith mt "image/"
        && decide (bytes.length ≤ maxFileSize) && werr.isNone
  | .delete _ _ => false

/-- Run one event against the state. -/
def stepEvent (st : ServerState) : Event → ServerState
  | .upload hf mt nm bytes now rand werr =>
      (uploadPhoto st hf mt nm bytes now rand werr).2
  | .delete idStr u => (deletePhoto st idStr u).2

/-- A run of the process: any interleaving of uploads and deletes. -/
def runEvents (evs : List Event) (st : ServerState) : ServerState :=
  evs.foldl stepEvent st

/-- The filenames issued to the records created during a run (one per
successful upload). -/
def issuedFilenames : List Event → List String
  | [] => []
  | .upload hf mt nm bytes now rand werr :: evs =>
      if Event.succeeds (.upload hf mt nm bytes now rand werr)
      then genFilename now rand :: issuedFilenames evs
      else issuedFilenames evs
  | .delete _ _ :: evs => issuedFilenames evs

/-- The (clock value, random suffix) pairs drawn by the successful
uploads of a run. -/
def issuedDraws : List Event → List (Nat × Nat)
  | [] => []
  | .upload hf mt nm bytes now rand werr :: evs =>
      if Event.succeeds (.upload hf mt nm bytes now rand werr)
      then (now, rand) :: issuedDraws evs
      else issuedDraws evs
  | .delete _ _ :: evs => issuedDraws evs

/-! ### Helper lemmas -/

theorem fsRead_fsWrite (fs : Fs) (p : List String) (b : List Nat) :
    fsRead (fsWrite fs p b) p = some b := by
  simp [fsRead, fsWrite, List.find?]

theorem strStartsWith_image_of_slash (mt : String)
    (h : strStartsWith mt "image" = false) :
    strStartsWith mt "image/" = false := by
  unfold strStartsWith at h ⊢
  by_contra hb
  rw [Bool.not_eq_false, List.isPrefixOf_iff_prefix] at hb
  rw [← Bool.not_eq_true, List.isPrefixOf_iff_prefix] at h
  exact h (List.IsPrefix.trans (List.isPrefixOf_iff_prefix.mp (by decide)) hb)

theorem uploadPhoto_ok_eq (st : ServerState) (mt nm : String)
    (bytes : List Nat) (now rand : Nat)
    (hmt : strStartsWith mt "image/" = true)
    (hsz : bytes.length ≤ maxFileSize) :
    uploadPhoto st true mt nm bytes now rand none =
      (.ok now (genFilename now rand)
        ("/api/photos/" ++ genFilename now rand) now,
       { photos := st.photos ++ [mkPhotoRecord nm mt bytes now rand],
         fs := fsWrite st.fs (pathJoin uploadsDir (genFilename now rand)) bytes }) := by
  simp [uploadPhoto, hmt, Nat.not_lt.mpr hsz, mkPhotoRecord]

theorem uploadPhoto_writeErr_eq (st : ServerState) (mt nm : String)
    (bytes : List Nat) (now rand : Nat) (m : String) (k : Nat)
    (hmt : strStartsWith mt "image/" = true)
    (hsz : bytes.length ≤ maxFileSize) :
    uploadPhoto st true mt nm bytes now rand (some (m, k)) =
      (UploadResult.writeError m,
       { photos := st.photos,
         fs := fsWrite st.fs (pathJoin uploadsDir (genFilename now rand))
           (bytes.take k) }) := by
  simp [uploadPhoto, hmt, Nat.not_lt.mpr hsz, mkPhotoRecord]

theorem uploadPhoto_filterError_eq (st : ServerState) (mt nm : String)
    (bytes : List Nat) (now rand : Nat) (werr : Option (String × Nat))
    (h2 : strStartsWith mt "image/" = false) :
    uploadPhoto st true mt nm bytes now rand werr
      = (UploadResult.filterError, st) := by
  simp [uploadPhoto, h2]

theorem stepUpload_photos (st : ServerState) (it : UploadItem)
    (hsz : it.bytes.length ≤ maxFileSize) :
    (stepUpload st it).photos = st.photos ++ [mkUploadRecord it] := by
  unfold stepUpload
  rw [uploadPhoto_ok_eq st "image/jpeg" it.originalName it.bytes it.now it.rand
    (by decide) hsz]
  rfl

theorem uploadRun_photos : ∀ (items : List UploadItem) (st : ServerState),
    (∀ it ∈ items, it.bytes.length ≤ maxFileSize) →
    (uploadRun items st).photos = st.photos ++ items.map mkUploadRecord
  | [], st, _ => by simp [uploadRun]
  | it :: items, st, h => by
    have h1 : it.bytes.length ≤ maxFileSize := h it (List.mem_cons_self it items)
    have h2 : ∀ x ∈ items, x.bytes.length ≤ maxFileSize := fun x hx =>
      h x (List.mem_cons_of_mem _ hx)
    have hrun : uploadRun (it :: items) st = uploadRun items (stepUpload st it) := by
      simp [uploadRun]
    rw [hrun, uploadRun_photos items (stepUpload st it) h2, stepUpload_photos st it h1]
    simp

theorem findRemoveById_eq_none (n : Int) :
    ∀ ps : List PhotoRecord, findById ps n = none → findRemoveById n ps = none := by
  intro ps
  induction ps with
  | nil => intro _; rfl
  | cons p ps ih =>
    intro h
    unfold findById at h
    rw [List.find?_cons] at h
    cases hb : ((p.id : Int) == n) with
    | true => rw [hb] at h; exact absurd h (by simp)
    | false =>
      rw [hb] at h
      unfold findRemoveById
      rw [ih h]
      simp [hb]

theorem findRemoveById_of_isSome (n : Int) :
    ∀ ps : List PhotoRecord, (findById ps n).isSome = true →
      ∃ p rest, findRemoveById n ps = some (p, rest)
        ∧ rest.length + 1 = ps.length
        ∧ (ps.countP (fun q => (q.id : Int) == n) ≤ 1 →
            ∀ q ∈ rest, ((q.id : Int) == n) = false) := by
  intro ps
  induction ps with
  | nil => intro h; exact absurd h (by simp [findById])
  | cons p ps ih =>
    intro h
    cases hb : ((p.id : Int) == n) with
    | true =>
      refine ⟨p, ps, by simp [findRemoveById, hb], by simp, ?_⟩
      intro hcnt q hq
      rw [List.countP_cons_of_pos (fun q : PhotoRecord => ((q.id : Int) == n)) ps hb] at hcnt
      have hzero : ps.countP (fun q => (q.id : Int) == n) = 0 := by omega
      have := List.countP_eq_zero.mp hzero q hq
      simpa using this
    | false =>
      have h' : (findById ps n).isSome = true := by
        unfold findById at h ⊢
        rw [List.find?_cons, hb] at h
        exact h
      obtain ⟨q, rest, hfr, hlen, hno⟩ := ih h'
      refine ⟨q, p :: rest, by simp [findRemoveById, hb, hfr], by simp [← hlen], ?_⟩
      intro hcnt x hx
      rw [List.countP_cons_of_neg (fun q : PhotoRecord => ((q.id : Int) == n)) ps (by simp [hb])] at hcnt
      rcases List.mem_cons.mp hx with rfl | hx'
      · exact hb
      · exact hno hcnt x hx'

theorem findRemoveById_first (n : Int) :
    ∀ (pre : List PhotoRecord) (p : PhotoRecord) (post : List PhotoRecord),
      (∀ q ∈ pre, ((q.id : Int) == n) = false) →
      ((p.id : Int) == n) = true →
      findRemoveById n (pre ++ p :: post) = some (p, pre ++ post) := by
  intro pre
  induction pre with
  | nil =>
    intro p post _ hp
    simp [findRemoveById, hp]
  | cons a as ih =>
    intro p post hpre hp
    have ha : ((a.id : Int) == n) = false := hpre a (List.mem_cons_self a as)
    rw [List.cons_append]
    unfold findRemoveById
    rw [ih p post (fun q hq => hpre q (List.mem_cons_of_mem _ hq)) hp]
    simp [ha]

/-! ### Decimal representation: decoding `Nat.repr` (for filename
uniqueness).  `Nat.repr n` is `(Nat.toDigits 10 n).asString`; we decode
the digit characters back to the number, which gives injectivity. -/

theorem digitChar_toNat (m : Nat) (h : m < 10) :
    (Nat.digitChar m).toNat = 48 + m := by
  interval_cases m <;> decide

theorem digitChar_isDigit (m : Nat) (h : m < 10) :
    (Nat.digitChar m).isDigit = true := by
  interval_cases m <;> decide

theorem toDigitsCore_foldl : ∀ (fuel n : Nat) (ds : List Char), n < fuel →
    (Nat.toDigitsCore 10 fuel n ds).foldl decDigitStep 0
      = ds.foldl decDigitStep n := by
  intro fuel
  induction fuel with
  | zero => intro n ds h; omega
  | succ fuel ih =>
    intro n ds h
    unfold Nat.toDigitsCore
    by_cases hd : n / 10 = 0
    · simp only [hd, if_pos]
      rw [List.foldl_cons]
      have : decDigitStep 0 (Nat.digitChar (n % 10)) = n := by
        unfold decDigitStep
        rw [digitChar_toNat (n % 10) (Nat.mod_lt _ (by norm_num))]
        omega
      rw [this]
    · simp only [hd, if_neg, ite_false]
      have h1 : n / 10 < fuel := by omega
      rw [ih (n / 10) (Nat.digitChar (n % 10) :: ds) h1, List.foldl_cons]
      have : decDigitStep (n / 10) (Nat.digitChar (n % 10)) = n := by
        unfold decDigitStep
        rw [digitChar_toNat (n % 10) (Nat.mod_lt _ (by norm_num))]
        omega
      rw [this]

theorem foldl_toDigits (n : Nat) :
    (Nat.toDigits 10 n).foldl decDigitStep 0 = n := by
  unfold Nat.toDigits
  rw [toDigitsCore_foldl (n + 1) n [] (Nat.lt_succ_self n)]
  rfl

theorem natRepr_inj (m n : Nat) (h : Nat.repr m = Nat.repr n) : m = n := by
  have h2 : Nat.toDigits 10 m = Nat.toDigits 10 n := by
    have h3 := congrArg String.data h
    simpa [Nat.repr, List.asString] using h3
  have hm := foldl_toDigits m
  rw [h2, foldl_toDigits n] at hm
  exact hm.symm

theorem toDigitsCore_mem : ∀ (fuel n : Nat) (ds : List Char) (c : Char),
    n < fuel → c ∈ Nat.toDigitsCore 10 fuel n ds →
    c ∈ ds ∨ c.isDigit = true := by
  intro fuel
  induction fuel with
  | zero => intro n ds c h; omega
  | succ fuel ih =>
    intro n ds c h hc
    unfold Nat.toDigitsCore at hc
    by_cases hd : n / 10 = 0
    · simp only [hd, if_pos] at hc
      rcases List.mem_cons.mp hc with rfl | h'
      · exact Or.inr (digitChar_isDigit _ (Nat.mod_lt _ (by norm_num)))
      · exact Or.inl h'
    · simp only [hd, if_neg, ite_false] at hc
      have h1 : n / 10 < fuel := by omega
      rcases ih (n / 10) (Nat.digitChar (n % 10) :: ds) c h1 hc with h' | h'
      · rcases List.mem_cons.mp h' with rfl | h''
        · exact Or.inr (digitChar_isDigit _ (Nat.mod_lt _ (by norm_num)))
        · exact Or.inl h''
      · exact Or.inr h'

theorem natRepr_chars_digit (n : Nat) (c : Char)
    (hc : c ∈ (Nat.repr n).data) : c.isDigit = true := by
  have h : c ∈ Nat.toDigits 10 n := by
    simpa [Nat.repr, List.asString] using hc
  rcases toDigitsCore_mem (n + 1) n [] c (Nat.lt_succ_self n) h with h' | h'
  · cases h'
  · exact h'

theorem append_cons_inj {α : Type} (c : α) :
    ∀ (xs xs' ys ys' : List α), c ∉ xs → c ∉ xs' →
      xs ++ c :: ys = xs' ++ c :: ys' → xs = xs' ∧ ys = ys' := by
  intro xs
  induction xs with
  | nil =>
    intro xs' ys ys' _ hx' h
    cases xs' with
    | nil => simpa using h
    | cons a as =>
      rw [List.nil_append, List.cons_append] at h
      injection h with h1 h2
      exact absurd (h1 ▸ List.mem_cons_self a as) hx'
  | cons a as ih =>
    intro xs' ys ys' hx hx' h
    cases xs' with
    | nil =>
      rw [List.nil_append, List.cons_append] at h
      injection h with h1 h2
      exact absurd (h1 ▸ List.mem_cons_self a as) hx
    | cons b bs =>
      rw [List.cons_append, List.cons_append] at h
      injection h with h1 h2
      subst h1
      obtain ⟨e1, e2⟩ := ih bs ys ys'
        (fun hm => hx (List.mem_cons_of_mem _ hm))
        (fun hm => hx' (List.mem_cons_of_mem _ hm)) h2
      exact ⟨by rw [e1], e2⟩

theorem genFilename_inj (n r n' r' : Nat)
    (h : genFilename n r = genFilename n' r') : n = n' ∧ r = r' := by
  have hd := congrArg String.data h
  simp only [genFilename, String.data_append] at hd
  simp only [List.append_assoc, List.singleton_append, List.cons_append,
    List.nil_append] at hd
  simp only [List.cons.injEq, eq_self_iff_true, true_and] at hd
  have hd2 := hd
  have hnodash : ∀ k : Nat, '-' ∉ (Nat.repr k).data := by
    intro k hm
    have := natRepr_chars_digit k '-' hm
    exact absurd this (by decide)
  have hnodot : ∀ k : Nat, '.' ∉ (Nat.repr k).data := by
    intro k hm
    have := natRepr_chars_digit k '.' hm
    exact absurd this (by decide)
  obtain ⟨e1, e2⟩ := append_cons_inj '-' (Nat.repr n).data (Nat.repr n').data
    _ _ (hnodash n) (hnodash n') hd2
  obtain ⟨e3, _⟩ := append_cons_inj '.' (Nat.repr r).data (Nat.repr r').data
    _ _ (hnodot r) (hnodot r') e2
  exact ⟨natRepr_inj n n' (String.ext e1), natRepr_inj r r' (String.ext e3)⟩

theorem uploadPhoto_photos_of_succeeds (st : ServerState) (hf : Bool)
    (mt nm : String) (bytes : List Nat) (now rand : Nat)
    (werr : Option (String × Nat))
    (h : Event.succeeds (.upload hf mt nm bytes now rand werr) = true) :
    (uploadPhoto st hf mt nm bytes now rand werr).2.photos
      = st.photos ++ [mkPhotoRecord nm mt bytes now rand] := by
  unfold Event.succeeds at h
  simp only [Bool.and_eq_true] at h
  obtain ⟨⟨⟨hf1, hmt⟩, hsz⟩, hwerr⟩ := h
  subst hf1
  have hw : werr = none := Option.isNone_iff_eq_none.mp hwerr
  subst hw
  rw [uploadPhoto_ok_eq st mt nm bytes now rand hmt (of_decide_eq_true hsz)]

theorem uploadPhoto_photos_of_not_succeeds (st : ServerState) (hf : Bool)
    (mt nm : String) (bytes : List Nat) (now rand : Nat)
    (werr : Option (String × Nat))
    (h : Event.succeeds (.upload hf mt nm bytes now rand werr) = false) :
    (uploadPhoto st hf mt nm bytes now rand werr).2.photos = st.photos := by
  cases hf with
  | false => simp [uploadPhoto]
  | true =>
    by_cases h2 : strStartsWith mt "image/" = false
    · simp [uploadPhoto, h2]
    · have h2t : strStartsWith mt "image/" = true := by
        cases hst : strStartsWith mt "image/"
        · exact absurd hst h2
        · rfl
      by_cases h3 : maxFileSize < bytes.length
      · simp [uploadPhoto, h2t, h3]
      · cases werr with
        | some mk =>
          obtain ⟨m, k⟩ := mk
          rw [uploadPhoto_writeErr_eq st mt nm bytes now rand m k h2t
            (Nat.not_lt.mp h3)]
        | none =>
          exfalso
          unfold Event.succeeds at h
          simp [h2t, Nat.not_lt.mp h3] at h

theorem findRemoveById_sublist (n : Int) :
    ∀ (ps : List PhotoRecord) (q : PhotoRecord) (rest : List PhotoRecord),
      findRemoveById n ps = some (q, rest) → rest.Sublist ps := by
  intro ps
  induction ps with
  | nil => intro q rest h; cases h
  | cons p ps ih =>
    intro q rest h
    unfold findRemoveById at h
    by_cases hb : ((p.id : Int) == n) = true
    · rw [if_pos hb] at h
      have h2 := Option.some.inj h
      have hr : ps = rest := congrArg Prod.snd h2
      rw [← hr]
      exact List.sublist_cons_self p ps
    · rw [if_neg hb] at h
      cases hfr : findRemoveById n ps with
      | none => rw [hfr] at h; cases h
      | some pr =>
        obtain ⟨q2, rest2⟩ := pr
        rw [hfr] at h
        have h2 := Option.some.inj h
        have hr : p :: rest2 = rest := congrArg Prod.snd h2
        rw [← hr]
        exact (ih q2 rest2 hfr).cons₂ p

theorem deletePhoto_photos_subset (st : ServerState) (idStr : String) (u : Bool) :
    ∀ p ∈ (deletePhoto st idStr u).2.photos, p ∈ st.photos := by
  intro p hp
  unfold deletePhoto at hp
  cases hj : jsParseInt idStr with
  | none =>
    rw [hj] at hp
    exact hp
  | some n =>
    rw [hj] at hp
    have hp2 : p ∈ (deleteById st n u).2.photos := hp
    unfold deleteById at hp2
    cases hfr : findRemoveById n st.photos with
    | none =>
      rw [hfr] at hp2
      exact hp2
    | some pr =>
      obtain ⟨q, rest⟩ := pr
      rw [hfr] at hp2
      have hp3 : p ∈ rest := hp2
      exact (findRemoveById_sublist n st.photos q rest hfr).subset hp3

theorem issuedFilenames_eq_map : ∀ evs : List Event,
    issuedFilenames evs
      = (issuedDraws evs).map (fun pr => genFilename pr.1 pr.2) := by
  intro evs
  induction evs with
  | nil => rfl
  | cons e evs ih =>
    cases e with
    | upload hf mt nm bytes now rand werr =>
      unfold issuedFilenames issuedDraws
      by_cases hs : Event.succeeds (.upload hf mt nm bytes now rand werr) = true
      · rw [if_pos hs, if_pos hs, List.map_cons, ih]
      · rw [if_neg hs, if_neg hs, ih]
    | delete idStr u =>
      unfold issuedFilenames issuedDraws
      exact ih

theorem runEvents_photos_mem : ∀ (evs : List Event) (st : ServerState)
    (p : PhotoRecord), p ∈ (runEvents evs st).photos →
    p ∈ st.photos ∨ p.filename ∈ issuedFilenames evs := by
  intro evs
  induction evs with
  | nil => intro st p hp; exact Or.inl hp
  | cons e evs ih =>
    intro st p hp
    have hp2 : p ∈ (runEvents evs (stepEvent st e)).photos := hp
    rcases ih (stepEvent st e) p hp2 with h1 | h2
    · cases e with
      | upload hf mt nm bytes now rand werr =>
        have h1u : p ∈ (uploadPhoto st hf mt nm bytes now rand werr).2.photos := h1
        by_cases hs : Event.succeeds (.upload hf mt nm bytes now rand werr) = true
        · rw [uploadPhoto_photos_of_succeeds st hf mt nm bytes now rand werr hs] at h1u
          rcases List.mem_append.mp h1u with hl | hr
          · exact Or.inl hl
          · right
            have hpr : p = mkPhotoRecord nm mt bytes now rand := by simpa using hr
            subst hpr
            unfold issuedFilenames
            rw [if_pos hs]
            exact List.mem_cons_self _ _
        · have hs2 : Event.succeeds (.upload hf mt nm bytes now rand werr) = false := by
            cases hx : Event.succeeds (.upload hf mt nm bytes now rand werr)
            · rfl
            · exact absurd hx hs
          rw [uploadPhoto_photos_of_not_succeeds st hf mt nm bytes now rand werr hs2] at h1u
          exact Or.inl h1u
      | delete idStr u =>
        exact Or.inl (deletePhoto_photos_subset st idStr u p h1)
    · right
      cases e with
      | upload hf mt nm bytes now rand werr =>
        unfold issuedFilenames
        by_cases hs : Event.succeeds (.upload hf mt nm bytes now rand werr) = true
        · rw [if_pos hs]
          exact List.mem_cons_of_mem _ h2
        · rw [if_neg hs]
          exact h2
      | delete idStr u =>
        unfold issuedFilenames
        exact h2

/-! ### Claim theorems -/

/-- C1 (code bug): given the path-traversal filename `../secret.txt`,
the blob-fetch handler joins it onto the storage directory and serves
the existing file `app/backend/secret.txt`, which lies outside the
storage directory `app/backend/uploads` — the claim requires any
filename with a parent-directory segment to be rejected with not-found
at the lookup boundary.  (`fetchPhoto` also takes no photo index at
all: the handler resolves by filesystem existence, not via a
`findByFilename` lookup.) -/
theorem fetchPhoto_traversal_reads_outside_storage :
    fetchPhoto [(["app", "backend", "secret.txt"], [42])] "../secret.txt"
      = .sendFile ["app", "backend", "secret.txt"] [42]
    ∧ uploadsDir.isPrefixOf ["app", "backend", "secret.txt"] = false := by
  decide

/-- C2 (counterexample): an upload with declared media type
`text/plain` is rejected through the generic error branch with HTTP
status 500 — not the 4xx-equivalent client-error status the claim
states (the fileFilter error is not a `MulterError`, so the middleware
falls through to its 500 branch). -/
theorem upload_non_image_gets_500 :
    (uploadPhoto ⟨[], []⟩ true "text/plain" "a.txt" [1] 1 2 none).1
      = UploadResult.filterError
    ∧ ((uploadPhoto ⟨[], []⟩ true "text/plain" "a.txt" [1] 1 2 none).1).status = 500
    ∧ ¬ (((uploadPhoto ⟨[], []⟩ true "text/plain" "a.txt" [1] 1 2 none).1).status < 500) := by
  decide

/-- C2 (amended): every upload carrying a file part whose declared
media type does not begin with `image` is rejected — with a
server-error status 500 and the message `Only image files are
allowed!` — and no record is appended and no file is created
(the post-state equals the pre-state). -/
theorem upload_non_image_rejected (st : ServerState) (mt nm : String)
    (bytes : List Nat) (now rand : Nat) (werr : Option (String × Nat))
    (h : strStartsWith mt "image" = false) :
    (uploadPhoto st true mt nm bytes now rand werr).1 = UploadResult.filterError
    ∧ ((uploadPhoto st true mt nm bytes now rand werr).1).status = 500
    ∧ ((uploadPhoto st true mt nm bytes now rand werr).1).message
        = "Only image files are allowed!"
    ∧ (uploadPhoto st true mt nm bytes now rand werr).2 = st := by
  have h2 := strStartsWith_image_of_slash mt h
  refine ⟨?_, ?_, ?_, ?_⟩ <;>
    simp [uploadPhoto, h2, UploadResult.status, UploadResult.message]

/-- C2 witness: the amended rejection at a concrete non-image upload. -/
theorem upload_non_image_rejected_witness :
    (uploadPhoto ⟨[], []⟩ true "text/html" "n.txt" [7] 3 4 none).1
      = UploadResult.filterError
    ∧ ((uploadPhoto ⟨[], []⟩ true "text/html" "n.txt" [7] 3 4 none).1).status = 500
    ∧ ((uploadPhoto ⟨[], []⟩ true "text/html" "n.txt" [7] 3 4 none).1).message
        = "Only image files are allowed!"
    ∧ (uploadPhoto ⟨[], []⟩ true "text/html" "n.txt" [7] 3 4 none).2 = ⟨[], []⟩ :=
  upload_non_image_rejected ⟨[], []⟩ "text/html" "n.txt" [7] 3 4 none (by decide)

/-- C3 (counterexample): an `image/jpeg` upload whose disk write
errors after two of its three bytes is rejected, and no record is
appended — but the partially-written file stays on disk (multer unlinks
only completed uploads, never the file whose write stream errored), and
the by-filename fetch serves those partial bytes: a file without an
index record is reachable by callers, so the write and the append are
not a single effective unit. -/
theorem upload_write_failure_leaves_partial_file :
    ((uploadPhoto ⟨[], []⟩ true "image/jpeg" "a.jpg" [1, 2, 3] 5 7
        (some ("ENOSPC: no space left on device", 2))).1).isOk = false
    ∧ (uploadPhoto ⟨[], []⟩ true "image/jpeg" "a.jpg" [1, 2, 3] 5 7
        (some ("ENOSPC: no space left on device", 2))).2.photos = []
    ∧ fetchPhoto ((uploadPhoto ⟨[], []⟩ true "image/jpeg" "a.jpg" [1, 2, 3] 5 7
        (some ("ENOSPC: no space left on device", 2))).2.fs) (genFilename 5 7)
      = FetchResult.sendFile (pathJoin uploadsDir (genFilename 5 7)) [1, 2] := by
  decide

/-- C3 (amended): the index append happens only as part of a fully
successful write — on any failure no record is appended and the upload
surfaces an error; pre-write and size-limit failures leave the state
fully unchanged by the earlier branches, but a mid-write failure leaves
the partially-written blob on disk without an index record, reachable
through the by-filename fetch; on success the record is appended and
its file readable. -/
theorem upload_append_only_after_write (st : ServerState) (hasFile : Bool)
    (mt nm : String) (bytes : List Nat) (now rand : Nat)
    (werr : Option (String × Nat)) :
    (((uploadPhoto st hasFile mt nm bytes now rand werr).1).isOk = false →
      (uploadPhoto st hasFile mt nm bytes now rand werr).2.photos = st.photos)
    ∧ ((hasFile = false ∨ strStartsWith mt "image/" = false
        ∨ maxFileSize < bytes.length) →
      (uploadPhoto st hasFile mt nm bytes now rand werr).2 = st)
    ∧ (∀ m k, werr = some (m, k) → hasFile = true →
        strStartsWith mt "image/" = true → bytes.length ≤ maxFileSize →
        (uploadPhoto st hasFile mt nm bytes now rand werr).1
            = UploadResult.writeError m
        ∧ (uploadPhoto st hasFile mt nm bytes now rand werr).2.photos = st.photos
        ∧ fetchPhoto ((uploadPhoto st hasFile mt nm bytes now rand werr).2.fs)
            (genFilename now rand)
          = FetchResult.sendFile (pathJoin uploadsDir (genFilename now rand))
              (bytes.take k))
    ∧ (((uploadPhoto st hasFile mt nm bytes now rand werr).1).isOk = true →
        (uploadPhoto st hasFile mt nm bytes now rand werr).2.photos
          = st.photos ++ [mkPhotoRecord nm mt bytes now rand]
        ∧ fsRead ((uploadPhoto st hasFile mt nm bytes now rand werr).2.fs)
            (mkPhotoRecord nm mt bytes now rand).path = some bytes) := by
  refine ⟨?_, ?_, ?_, ?_⟩
  · intro hfail
    unfold uploadPhoto at hfail ⊢
    by_cases h1 : hasFile = false
    · simp [h1]
    · by_cases h2 : strStartsWith mt "image/" = false
      · simp [h1, h2]
      · by_cases h3 : maxFileSize < bytes.length
        · simp [h1, h2, h3]
        · cases werr with
          | some mk => simp [h1, h2, h3]
          | none => simp [h1, h2, h3, UploadResult.isOk] at hfail
  · intro hcase
    unfold uploadPhoto
    by_cases h1 : hasFile = false
    · simp [h1]
    · by_cases h2 : strStartsWith mt "image/" = false
      · simp [h1, h2]
      · rcases hcase with hc | hc | hc
        · exact absurd hc h1
        · exact absurd hc h2
        · simp [h1, h2, hc]
  · intro m k hw h1 h2 h3
    subst hw
    subst h1
    rw [uploadPhoto_writeErr_eq st mt nm bytes now rand m k h2 h3]
    exact ⟨rfl, rfl, by simp [fetchPhoto, fsRead_fsWrite]⟩
  · intro hok
    unfold uploadPhoto at hok ⊢
    by_cases h1 : hasFile = false
    · simp [h1, UploadResult.isOk] at hok
    · by_cases h2 : strStartsWith mt "image/" = false
      · simp [h1, h2, UploadResult.isOk] at hok
      · by_cases h3 : maxFileSize < bytes.length
        · simp [h1, h2, h3, UploadResult.isOk] at hok
        · cases werr with
          | some mk => simp [h1, h2, h3, UploadResult.isOk] at hok
          | none => simp [h1, h2, h3, fsRead_fsWrite]

/-- C3 witness: the write-failure clause at a concrete upload — error
surfaced, no record, the partial file reachable by filename. -/
theorem upload_append_only_after_write_witness :
    (uploadPhoto ⟨[], []⟩ true "image/jpeg" "w.jpg" [1, 2] 3 4 (some ("EIO", 1))).1
        = UploadResult.writeError "EIO"
    ∧ (uploadPhoto ⟨[], []⟩ true "image/jpeg" "w.jpg" [1, 2] 3 4
        (some ("EIO", 1))).2.photos = []
    ∧ fetchPhoto ((uploadPhoto ⟨[], []⟩ true "image/jpeg" "w.jpg" [1, 2] 3 4
        (some ("EIO", 1))).2.fs) (genFilename 3 4)
      = FetchResult.sendFile (pathJoin uploadsDir (genFilename 3 4))
          ([1, 2].take 1) := by
  have h := (upload_append_only_after_write ⟨[], []⟩ true "image/jpeg" "w.jpg"
      [1, 2] 3 4 (some ("EIO", 1))).2.2.1 "EIO" 1 rfl rfl (by decide) (by decide)
  exact ⟨h.1, h.2.1, h.2.2⟩

/-- C4: round-trip — a successful `image/jpeg` upload of bytes `B`
returns the url `/api/photos/<filename>`, and fetching that filename
serves exactly `B`. -/
theorem upload_fetch_roundtrip (st : ServerState) (nm : String)
    (bytes : List Nat) (now rand : Nat) (hsz : bytes.length ≤ maxFileSize) :
    (uploadPhoto st true "image/jpeg" nm bytes now rand none).1
      = UploadResult.ok now (genFilename now rand)
          ("/api/photos/" ++ genFilename now rand) now
    ∧ fetchPhoto ((uploadPhoto st true "image/jpeg" nm bytes now rand none).2.fs)
        (genFilename now rand)
      = FetchResult.sendFile (pathJoin uploadsDir (genFilename now rand)) bytes := by
  rw [uploadPhoto_ok_eq st "image/jpeg" nm bytes now rand (by decide) hsz]
  refine ⟨rfl, ?_⟩
  simp [fetchPhoto, mkPhotoRecord, fsRead_fsWrite]

/-- C4 witness: the round-trip at a concrete upload. -/
theorem upload_fetch_roundtrip_witness :
    (uploadPhoto ⟨[], []⟩ true "image/jpeg" "r.jpg" [9, 8] 5 6 none).1
      = UploadResult.ok 5 (genFilename 5 6) ("/api/photos/" ++ genFilename 5 6) 5
    ∧ fetchPhoto ((uploadPhoto ⟨[], []⟩ true "image/jpeg" "r.jpg" [9, 8] 5 6 none).2.fs)
        (genFilename 5 6)
      = FetchResult.sendFile (pathJoin uploadsDir (genFilename 5 6)) [9, 8] :=
  upload_fetch_roundtrip ⟨[], []⟩ "r.jpg" [9, 8] 5 6 (by decide)

/-- C8 (counterexample): an oversize upload whose media type is not an
image is rejected by the fileFilter first — with the 500 response
`Only image files are allowed!` — not with a client-error naming the
10 MiB ceiling as the claim states for every oversize upload. -/
theorem upload_oversize_non_image_gets_filter_500 :
    maxFileSize < (List.replicate (maxFileSize + 1) 0).length
    ∧ (uploadPhoto ⟨[], []⟩ true "text/plain" "big.txt"
        (List.replicate (maxFileSize + 1) 0) 1 2 none).1 = UploadResult.filterError
    ∧ ((uploadPhoto ⟨[], []⟩ true "text/plain" "big.txt"
        (List.replicate (maxFileSize + 1) 0) 1 2 none).1).status = 500
    ∧ ¬ (((uploadPhoto ⟨[], []⟩ true "text/plain" "big.txt"
        (List.replicate (maxFileSize + 1) 0) 1 2 none).1).status < 500)
    ∧ ((uploadPhoto ⟨[], []⟩ true "text/plain" "big.txt"
        (List.replicate (maxFileSize + 1) 0) 1 2 none).1).message
        ≠ "File too large. Maximum size is 10MB." := by
  have hres : (uploadPhoto ⟨[], []⟩ true "text/plain" "big.txt"
      (List.replicate (maxFileSize + 1) 0) 1 2 none).1 = UploadResult.filterError := by
    rw [uploadPhoto_filterError_eq ⟨[], []⟩ "text/plain" "big.txt"
      (List.replicate (maxFileSize + 1) 0) 1 2 none (by decide)]
  refine ⟨by rw [List.length_replicate]; omega, hres, ?_, ?_, ?_⟩ <;>
    rw [hres] <;> decide

/-- C8 (amended): every oversize upload is rejected with the state
(index and disk) unchanged — no bytes durably written — and when the
upload carries a file part with an image media type the response is the
client-error 400 naming the 10MB ceiling (a non-image oversize upload
is instead stopped by the media-type filter with its 500 response). -/
theorem upload_oversize_rejected (st : ServerState) (hasFile : Bool)
    (mt nm : String) (bytes : List Nat) (now rand : Nat)
    (werr : Option (String × Nat))
    (hsz : maxFileSize < bytes.length) :
    (((uploadPhoto st hasFile mt nm bytes now rand werr).1).isOk = false
      ∧ (uploadPhoto st hasFile mt nm bytes now rand werr).2 = st)
    ∧ (hasFile = true → strStartsWith mt "image/" = true →
        (uploadPhoto st hasFile mt nm bytes now rand werr).1 = UploadResult.sizeError
        ∧ ((uploadPhoto st hasFile mt nm bytes now rand werr).1).status = 400
        ∧ 400 ≤ ((uploadPhoto st hasFile mt nm bytes now rand werr).1).status
        ∧ ((uploadPhoto st hasFile mt nm bytes now rand werr).1).status < 500
        ∧ ((uploadPhoto st hasFile mt nm bytes now rand werr).1).message
            = "File too large. Maximum size is 10MB.") := by
  constructor
  · by_cases h1 : hasFile = false
    · simp [uploadPhoto, h1, UploadResult.isOk]
    · by_cases h2 : strStartsWith mt "image/" = false
      · simp [uploadPhoto, h1, h2, UploadResult.isOk]
      · simp [uploadPhoto, h1, h2, hsz, UploadResult.isOk]
  · intro hf hmt
    subst hf
    refine ⟨?_, ?_, ?_, ?_, ?_⟩ <;>
      simp [uploadPhoto, hmt, hsz, UploadResult.status, UploadResult.message]

/-- C8 witness: a concrete oversize image upload of 10 MiB + 1 bytes —
rejected with the state unchanged and the 400 ceiling response. -/
theorem upload_oversize_rejected_witness :
    ((((uploadPhoto ⟨[], []⟩ true "image/jpeg" "big.jpg"
        (List.replicate (maxFileSize + 1) 0) 1 2 none).1).isOk = false
      ∧ (uploadPhoto ⟨[], []⟩ true "image/jpeg" "big.jpg"
        (List.replicate (maxFileSize + 1) 0) 1 2 none).2 = ⟨[], []⟩)
    ∧ (true = true → strStartsWith "image/jpeg" "image/" = true →
        (uploadPhoto ⟨[], []⟩ true "image/jpeg" "big.jpg"
          (List.replicate (maxFileSize + 1) 0) 1 2 none).1 = UploadResult.sizeError
        ∧ ((uploadPhoto ⟨[], []⟩ true "image/jpeg" "big.jpg"
          (List.replicate (maxFileSize + 1) 0) 1 2 none).1).status = 400
        ∧ 400 ≤ ((uploadPhoto ⟨[], []⟩ true "image/jpeg" "big.jpg"
          (List.replicate (maxFileSize + 1) 0) 1 2 none).1).status
        ∧ ((uploadPhoto ⟨[], []⟩ true "image/jpeg" "big.jpg"
          (List.replicate (maxFileSize + 1) 0) 1 2 none).1).status < 500
        ∧ ((uploadPhoto ⟨[], []⟩ true "image/jpeg" "big.jpg"
          (List.replicate (maxFileSize + 1) 0) 1 2 none).1).message
            = "File too large. Maximum size is 10MB.")) :=
  upload_oversize_rejected ⟨[], []⟩ true "image/jpeg" "big.jpg"
    (List.replicate (maxFileSize + 1) 0) 1 2 none
    (by rw [List.length_replicate]; omega)

/-- C5 (counterexample): after two same-millisecond uploads the state
`stDup` holds two records with id 100; `deleteById 100` succeeds but a
record with id 100 is still found afterwards — the claim's
"afterwards findById(id) returns not-found" fails when ids collide. -/
theorem deleteById_duplicate_id_cex :
    (findById stDup.photos 100).isSome = true
    ∧ (deleteById stDup 100 true).1 = DeleteResult.success
    ∧ (findById ((deleteById stDup 100 true).2.photos) 100).isSome = true := by
  decide

/-- C5 (amended): if a record with the id is present and no other live
record shares that very id (at most one record matches it), the delete
succeeds, afterwards `findById` returns not-found and the listing
excludes the id; an absent id — unconditionally — yields not-found with
the state unchanged. -/
theorem deleteById_removes_id (st : ServerState) (n : Int) (u : Bool) :
    (((findById st.photos n).isSome = true
        ∧ st.photos.countP (fun q => (q.id : Int) == n) ≤ 1) →
      (deleteById st n u).1 = DeleteResult.success
      ∧ findById ((deleteById st n u).2.photos) n = none
      ∧ ∀ q ∈ (listPhotos ((deleteById st n u).2)).2, (q.id : Int) ≠ n)
    ∧ (findById st.photos n = none →
      deleteById st n u = (DeleteResult.notFound, st)) := by
  constructor
  · rintro ⟨hsome, hcount⟩
    obtain ⟨p, rest, hfr, hlen, hno⟩ := findRemoveById_of_isSome n st.photos hsome
    have hrest := hno hcount
    unfold deleteById
    rw [hfr]
    refine ⟨rfl, ?_, ?_⟩
    · unfold findById
      rw [List.find?_eq_none]
      intro x hx
      simp [hrest x hx]
    · intro q hq
      simp only [listPhotos, List.mem_map] at hq
      obtain ⟨r, hr, rfl⟩ := hq
      have hb := hrest r hr
      simp only [projectPhoto]
      exact beq_eq_false_iff_ne.mp hb
  · intro hnone
    unfold deleteById
    rw [findRemoveById_eq_none n st.photos hnone]

/-- C5 witness: on a one-record state the present id is removed and an
absent id (0) responds not-found with the state unchanged. -/
theorem deleteById_removes_id_witness :
    (deleteById st7 7 true).1 = DeleteResult.success
    ∧ findById ((deleteById st7 7 true).2.photos) 7 = none
    ∧ deleteById st7 0 true = (DeleteResult.notFound, st7) :=
  ⟨((deleteById_removes_id st7 7 true).1 ⟨by decide, by decide⟩).1,
   ((deleteById_removes_id st7 7 true).1 ⟨by decide, by decide⟩).2.1,
   (deleteById_removes_id st7 0 true).2 (by decide)⟩

/-- C6: when the file unlink fails (`unlinkOk = false`, the throw is
caught and only logged), the delete of a present id still reports
success, removes the same index entry as a successful unlink would, and
leaves the disk untouched (the blob is orphaned). -/
theorem deleteById_swallows_unlink_failure (st : ServerState) (n : Int)
    (hsome : (findById st.photos n).isSome = true) :
    (deleteById st n false).1 = DeleteResult.success
    ∧ (deleteById st n false).2.photos = (deleteById st n true).2.photos
    ∧ (deleteById st n false).2.photos.length + 1 = st.photos.length
    ∧ (deleteById st n false).2.fs = st.fs := by
  obtain ⟨p, rest, hfr, hlen, _⟩ := findRemoveById_of_isSome n st.photos hsome
  unfold deleteById
  rw [hfr]
  refine ⟨rfl, rfl, by simpa using hlen, by simp⟩

/-- C6 witness: the swallowed unlink failure at a concrete state. -/
theorem deleteById_swallows_unlink_failure_witness :
    (deleteById st7 7 false).1 = DeleteResult.success
    ∧ (deleteById st7 7 false).2.photos = (deleteById st7 7 true).2.photos
    ∧ (deleteById st7 7 false).2.photos.length + 1 = st7.photos.length
    ∧ (deleteById st7 7 false).2.fs = st7.fs :=
  deleteById_swallows_unlink_failure st7 7 (by decide)

/-- C7: the listing returns the records in insertion order with `count`
equal to the returned list's length, and a sequential run of uploads
with a non-decreasing clock yields exactly those records in upload
order with non-decreasing ids. -/
theorem listPhotos_order_and_run (st : ServerState) (items : List UploadItem)
    (hsz : ∀ it ∈ items, it.bytes.length ≤ maxFileSize)
    (hmono : List.Chain' (fun a b => a ≤ b) (items.map UploadItem.now)) :
    ((listPhotos st).1 = (listPhotos st).2.length
      ∧ (listPhotos st).2 = st.photos.map projectPhoto)
    ∧ ((listPhotos (uploadRun items ⟨[], []⟩)).1 = items.length
      ∧ (listPhotos (uploadRun items ⟨[], []⟩)).2
          = items.map (fun it => projectPhoto (mkUploadRecord it))
      ∧ (listPhotos (uploadRun items ⟨[], []⟩)).2.map PhotoProjection.id
          = items.map UploadItem.now
      ∧ List.Chain' (fun a b => a ≤ b)
          ((listPhotos (uploadRun items ⟨[], []⟩)).2.map PhotoProjection.id)) := by
  have hrun := uploadRun_photos items ⟨[], []⟩ hsz
  constructor
  · exact ⟨by simp [listPhotos], rfl⟩
  · have h2 : (listPhotos (uploadRun items ⟨[], []⟩)).2
        = items.map (fun it => projectPhoto (mkUploadRecord it)) := by
      simp [listPhotos, hrun]
    have hid : (listPhotos (uploadRun items ⟨[], []⟩)).2.map PhotoProjection.id
        = items.map UploadItem.now := by
      rw [h2, List.map_map]
      rfl
    refine ⟨by simp [listPhotos, hrun], h2, hid, ?_⟩
    rw [hid]
    exact hmono

/-- C7 witness: three sequential uploads with non-decreasing clock. -/
theorem listPhotos_order_and_run_witness :
    ((listPhotos st123).1 = (listPhotos st123).2.length
      ∧ (listPhotos st123).2 = st123.photos.map projectPhoto)
    ∧ ((listPhotos (uploadRun [⟨"a.jpg", [1], 10, 1⟩, ⟨"b.jpg", [2], 11, 2⟩,
          ⟨"c.jpg", [3], 11, 3⟩] ⟨[], []⟩)).1 = 3
      ∧ (listPhotos (uploadRun [⟨"a.jpg", [1], 10, 1⟩, ⟨"b.jpg", [2], 11, 2⟩,
          ⟨"c.jpg", [3], 11, 3⟩] ⟨[], []⟩)).2
          = [⟨"a.jpg", [1], 10, 1⟩, ⟨"b.jpg", [2], 11, 2⟩,
             ⟨"c.jpg", [3], 11, 3⟩].map (fun it => projectPhoto (mkUploadRecord it))
      ∧ (listPhotos (uploadRun [⟨"a.jpg", [1], 10, 1⟩, ⟨"b.jpg", [2], 11, 2⟩,
          ⟨"c.jpg", [3], 11, 3⟩] ⟨[], []⟩)).2.map PhotoProjection.id = [10, 11, 11]
      ∧ List.Chain' (fun a b => a ≤ b)
          ((listPhotos (uploadRun [⟨"a.jpg", [1], 10, 1⟩, ⟨"b.jpg", [2], 11, 2⟩,
            ⟨"c.jpg", [3], 11, 3⟩] ⟨[], []⟩)).2.map PhotoProjection.id)) :=
  listPhotos_order_and_run st123
    [⟨"a.jpg", [1], 10, 1⟩, ⟨"b.jpg", [2], 11, 2⟩, ⟨"c.jpg", [3], 11, 3⟩]
    (by decide) (by simp [List.chain'_cons])

/-- C9 (counterexample): two uploads that draw the same millisecond
clock value and the same random suffix produce two records with the
identical filename `photo-5-7.jpg` — the generation scheme does not
enforce the claimed uniqueness. -/
theorem filename_collision_cex :
    ((uploadRun [⟨"a.jpg", [1], 5, 7⟩, ⟨"b.jpg", [2], 5, 7⟩] ⟨[], []⟩).photos.map
        PhotoRecord.filename)
      = ["photo-5-7.jpg", "photo-5-7.jpg"]
    ∧ ¬ ((uploadRun [⟨"a.jpg", [1], 5, 7⟩, ⟨"b.jpg", [2], 5, 7⟩] ⟨[], []⟩).photos.map
        PhotoRecord.filename).Nodup := by
  decide

/-- C9 (amended): in any run of the process — any interleaving of
uploads (of any media type, including failing ones) and deletes — the
filenames issued by the successful uploads are pairwise distinct
provided no two of them drew the same (clock value, random suffix)
pair, and every record live at any point carries an issued filename
(records are only ever created by successful uploads); so no two
records ever created in such a run share a filename. -/
theorem filenames_unique_of_distinct_draws (evs : List Event)
    (hdraws : (issuedDraws evs).Nodup) :
    (issuedFilenames evs).Nodup
    ∧ ∀ p ∈ (runEvents evs ⟨[], []⟩).photos, p.filename ∈ issuedFilenames evs := by
  constructor
  · rw [issuedFilenames_eq_map]
    refine List.Nodup.map ?_ hdraws
    intro a b hab
    obtain ⟨e1, e2⟩ := genFilename_inj a.1 a.2 b.1 b.2 hab
    exact Prod.ext e1 e2
  · intro p hp
    rcases runEvents_photos_mem evs ⟨[], []⟩ p hp with h | h
    · exact absurd h (List.not_mem_nil p)
    · exact h

/-- C9 witness: a run with two successful uploads (distinct draws), a
failing non-image upload and a delete — the issued filenames are
pairwise distinct and every live record carries one of them. -/
theorem filenames_unique_of_distinct_draws_witness :
    (issuedFilenames
        [Event.upload true "image/jpeg" "a.jpg" [1] 5 7 none,
         Event.delete "5" true,
         Event.upload true "text/plain" "b.txt" [2] 5 7 none,
         Event.upload true "image/png" "c.png" [3] 6 8 none]).Nodup
    ∧ ∀ p ∈ (runEvents
        [Event.upload true "image/jpeg" "a.jpg" [1] 5 7 none,
         Event.delete "5" true,
         Event.upload true "text/plain" "b.txt" [2] 5 7 none,
         Event.upload true "image/png" "c.png" [3] 6 8 none] ⟨[], []⟩).photos,
      p.filename ∈ issuedFilenames
        [Event.upload true "image/jpeg" "a.jpg" [1] 5 7 none,
         Event.delete "5" true,
         Event.upload true "text/plain" "b.txt" [2] 5 7 none,
         Event.upload true "image/png" "c.png" [3] 6 8 none] :=
  filenames_unique_of_distinct_draws
    [Event.upload true "image/jpeg" "a.jpg" [1] 5 7 none,
     Event.delete "5" true,
     Event.upload true "text/plain" "b.txt" [2] 5 7 none,
     Event.upload true "image/png" "c.png" [3] 6 8 none] (by decide)

/-- C10 (counterexample): the id string `" 123"` (leading space, as
produced by the encoded path `%20123`) has no leading decimal integer
prefix, yet `parseInt` skips whitespace and yields 123, so the delete
succeeds and removes the record with id 123 — the claim's "no integer
prefix implies not-found with the index unchanged" fails. -/
theorem deletePhoto_whitespace_id_cex :
    leadingDecimalNat? " 123" = none
    ∧ (deletePhoto st123 " 123" true).1 = DeleteResult.success
    ∧ (deletePhoto st123 " 123" true).2.photos = [] := by
  decide

/-- C10 (amended): the delete operation parses the id with JavaScript
`parseInt` semantics; a parse failure (`NaN`) yields not-found with the
state unchanged; when the parsed id is live, the delete succeeds and the
record removed is exactly the first one whose id matches (for an index
splitting as `pre ++ p :: post` with no match in `pre` and `p` matching,
the new index is `pre ++ post`); a parsed id that is absent yields
not-found with the state unchanged. -/
theorem deletePhoto_parses_parseInt (st : ServerState) (s : String) (u : Bool) :
    (jsParseInt s = none → deletePhoto st s u = (DeleteResult.notFound, st))
    ∧ (∀ (n : Int) (pre : List PhotoRecord) (p : PhotoRecord)
          (post : List PhotoRecord),
        jsParseInt s = some n →
        st.photos = pre ++ p :: post →
        (∀ q ∈ pre, ((q.id : Int) == n) = false) →
        ((p.id : Int) == n) = true →
        (deletePhoto st s u).1 = DeleteResult.success
        ∧ (deletePhoto st s u).2.photos = pre ++ post)
    ∧ (∀ n : Int, jsParseInt s = some n → findById st.photos n = none →
        deletePhoto st s u = (DeleteResult.notFound, st)) := by
  refine ⟨?_, ?_, ?_⟩
  · intro h
    unfold deletePhoto
    rw [h]
  · intro n pre p post hp hsplit hpre hmatch
    have hstep : deletePhoto st s u = deleteById st n u := by
      unfold deletePhoto
      rw [hp]
    have hfr : findRemoveById n st.photos = some (p, pre ++ post) := by
      rw [hsplit]
      exact findRemoveById_first n pre p post hpre hmatch
    rw [hstep]
    unfold deleteById
    rw [hfr]
    exact ⟨rfl, rfl⟩
  · intro n hp hnone
    have hstep : deletePhoto st s u = deleteById st n u := by
      unfold deletePhoto
      rw [hp]
    rw [hstep]
    unfold deleteById
    rw [findRemoveById_eq_none n st.photos hnone]

/-- C10 witness: `"123abc"` parses to 123 and deletes the (first and
only) live record with id 123, leaving the index empty; `"abc"` parses
to no number and yields not-found with the state unchanged. -/
theorem deletePhoto_parses_parseInt_witness :
    ((deletePhoto st123 "123abc" true).1 = DeleteResult.success
      ∧ (deletePhoto st123 "123abc" true).2.photos = [])
    ∧ deletePhoto st123 "abc" true = (DeleteResult.notFound, st123) := by
  have h := (deletePhoto_parses_parseInt st123 "123abc" true).2.1 123 []
    (mkPhotoRecord "cap.jpg" "image/jpeg" [1, 2] 123 9) []
    (by decide) (by decide) (by intro q hq; cases hq) (by decide)
  exact ⟨⟨h.1, by simpa using h.2⟩,
    (deletePhoto_parses_parseInt st123 "abc" true).1 (by decide)⟩
